import Mathlib

/-!
Shallow embedding of the ERP-Chatbot core services
(`app/application/doctype_service.py` and `app/application/report_service.py`).

JSON values flowing through the services are modelled by the inductive type
`Value`; Python dictionaries become association lists with Python's
insert-or-overwrite update semantics (`dictInsert`).  Numbers are modelled as
exact rationals (Python floats are binary doubles; the difference is
irrelevant for the integer-valued data the verified properties exercise).
The remote HTTP client is modelled by an `Env` record of response functions,
with transport errors as `Except.error`; the message-extraction detail of
`create_doctype_record`'s exception handler is folded into the error string.
A Python field dict with a missing `fieldname` key is modelled with the
empty string (both are falsy and treated alike by the classifier's skip
test).
-/

/-- JSON-like values exchanged with the remote system. -/
inductive Value where
  | null
  | bool (b : Bool)
  | num (q : ℚ)
  | str (s : String)
  | list (l : List Value)
  | dict (d : List (String × Value))

mutual

/-- Structural equality on JSON values, used for Python dict keys when
grouping report rows.  (Python's cross-type numeric equalities such as
`True == 1` are not reproduced; no verified property depends on them.) -/
def Value.beq : Value → Value → Bool
  | .null, .null => true
  | .bool a, .bool b => a == b
  | .num a, .num b => a == b
  | .str a, .str b => a == b
  | .list a, .list b => Value.beqList a b
  | .dict a, .dict b => Value.beqDict a b
  | _, _ => false

/-- Pointwise equality of JSON lists. -/
def Value.beqList : List Value → List Value → Bool
  | [], [] => true
  | a :: xs, b :: ys => Value.beq a b && Value.beqList xs ys
  | _, _ => false

/-- Pointwise equality of JSON objects (ordered, as Python dicts preserve
insertion order). -/
def Value.beqDict : List (String × Value) → List (String × Value) → Bool
  | [], [] => true
  | (k, a) :: xs, (l, b) :: ys => k == l && Value.beq a b && Value.beqDict xs ys
  | _, _ => false

end

instance : BEq Value := ⟨Value.beq⟩

/-- `doc.get(key)`: look a key up in a JSON object, `none` on a missing key
or a non-object. -/
def Value.getKey : Value → String → Option Value
  | .dict d, k => d.lookup k
  | _, _ => none

/-- Is this value a JSON object? -/
def Value.isDict : Value → Bool
  | .dict _ => true
  | _ => false

/-- Python `d[k] = v` on a dict: overwrite in place if the key is present
(keeping its position), otherwise append at the end. -/
def dictInsert {α : Type} (d : List (String × α)) (k : String) (v : α) :
    List (String × α) :=
  if d.any (fun p => p.1 == k) then
    d.map (fun p => if p.1 == k then (k, v) else p)
  else d ++ [(k, v)]

/-- Python `set.add`, with the set enumerated in insertion order.  (CPython
enumerates a set in a hash-determined order that is fixed within one
process; the embedding fixes insertion order as that enumeration.  All
verified properties are insensitive to the choice.) -/
def setAdd (l : List String) (x : String) : List String :=
  if x ∈ l then l else l ++ [x]

/-- Python truthiness of an optional list (`None` and `[]` are falsy). -/
def truthyOptList {α : Type} : Option (List α) → Bool
  | none => false
  | some l => !l.isEmpty

/-- Model of Python `str.lower()` (ASCII case folding; the services only
compare case-folded names, and non-ASCII folding is irrelevant to every
property proved here). -/
def pyLower (s : String) : String := String.mk (s.data.map Char.toLower)

/-- Model of Python `str.strip()` used by `float(...)`. -/
def pyStrip (s : String) : String :=
  String.mk (((s.data.dropWhile (·.isWhitespace)).reverse.dropWhile
    (·.isWhitespace)).reverse)

/-- Model of Python `str.endswith`. -/
def pyEndsWith (s t : String) : Bool := decide (t.data <:+ s.data)

/-- Left-to-right, non-overlapping replacement on character lists; the fuel
(always instantiated with the input length) makes the recursion structural. -/
def listReplace (pat rep : List Char) : Nat → List Char → List Char
  | 0, s => s
  | _ + 1, [] => []
  | n + 1, c :: rest =>
    if pat ≠ [] ∧ pat <+: (c :: rest) then
      rep ++ listReplace pat rep n ((c :: rest).drop pat.length)
    else c :: listReplace pat rep n rest

/-- Model of Python `str.replace` (all occurrences). -/
def pyReplace (s pat rep : String) : String :=
  String.mk (listReplace pat.data rep.data s.data.length s.data)

/-- Decimal value of a digit string. -/
def digitsNat (cs : List Char) : Nat :=
  cs.foldl (fun a c => a * 10 + (c.toNat - 48)) 0

/-- Parse the mantissa part `digits[.digits]` of a float literal, returning
its value and the unconsumed characters. -/
def parseMantissa (cs : List Char) : Option (ℚ × List Char) :=
  let ip := cs.takeWhile (·.isDigit)
  let r1 := cs.dropWhile (·.isDigit)
  match r1 with
  | '.' :: r2 =>
    let fp := r2.takeWhile (·.isDigit)
    let r3 := r2.dropWhile (·.isDigit)
    if ip.isEmpty && fp.isEmpty then none
    else some ((digitsNat ip : ℚ) + (digitsNat fp : ℚ) / ((10 : ℚ) ^ fp.length), r3)
  | _ => if ip.isEmpty then none else some ((digitsNat ip : ℚ), r1)

/-- Parse the exponent of a float literal (after the `e`). -/
def parseExponent (cs : List Char) : Option Int :=
  let sgn : Int := match cs with
    | '-' :: _ => -1
    | _ => 1
  let rest := match cs with
    | '+' :: r => r
    | '-' :: r => r
    | r => r
  if rest.isEmpty || !rest.all (·.isDigit) then none
  else some (sgn * (digitsNat rest : Int))

/-- Scale a mantissa by a signed power of ten. -/
def applyExp (m : ℚ) (e : Int) : ℚ :=
  if 0 ≤ e then m * (10 : ℚ) ^ e.toNat else m / (10 : ℚ) ^ (-e).toNat

/-- Model of Python `float(...)` applied to a string: optional surrounding
whitespace, optional sign, `digits[.digits][e[sign]digits]`.  (`inf`, `nan`
and digit-group underscores are not modelled; no verified property involves
them.) -/
def parseFloat (s : String) : Option ℚ :=
  let cs0 := (pyStrip s).data
  let neg : Bool := match cs0 with
    | '-' :: _ => true
    | _ => false
  let cs := match cs0 with
    | '+' :: r => r
    | '-' :: r => r
    | r => r
  match parseMantissa cs with
  | none => none
  | some (m, rest) =>
    let qOpt : Option ℚ := match rest with
      | [] => some m
      | 'e' :: r2 => (parseExponent r2).map (applyExp m)
      | 'E' :: r2 => (parseExponent r2).map (applyExp m)
      | _ => none
    qOpt.map (fun q => if neg then -q else q)

/-- Python `float(val)` on a JSON scalar: numbers pass through, booleans are
0/1, strings are parsed; `None`, lists and objects raise (modelled as
`none`, the caller's `except (ValueError, TypeError)` skip). -/
def coerceFloat : Value → Option ℚ
  | .num q => some q
  | .bool b => some (if b then 1 else 0)
  | .str s => parseFloat s
  | _ => none

/-! ## Field metadata and the Field Classifier (`analyze_doctype_for_creation`) -/

/-- One entry of a DocType's `fields` metadata list, with the keys the
services read (each `field.get(key, default)` default is baked into the
field's type; a missing `fieldname` is modelled as `""`, a missing `label`
key as `none`). -/
structure FieldMeta where
  fieldname : String
  fieldtype : String
  reqd : Nat
  read_only : Nat
  default : Option Value
  options : String
  label : Option String
  description : String

/-- The per-field description record built by `analyze_doctype_for_creation`. -/
structure FieldInfo where
  fieldname : String
  label : String
  fieldtype : String
  default : Option Value
  options : Option String
  description : String

/-- System fields excluded from creation (`excluded_fields` in
`analyze_doctype_for_creation`). -/
def excluded_fields : List String :=
  ["name", "creation", "modified", "modified_by", "owner",
   "docstatus", "idx", "doctype", "parent", "parentfield",
   "parenttype", "amended_from"]

/-- The `field_info` dict built for one field. -/
def mkFieldInfo (f : FieldMeta) : FieldInfo :=
  { fieldname := f.fieldname
    label := f.label.getD f.fieldname
    fieldtype := f.fieldtype
    default := f.default
    options := if f.options = "" then none else some f.options
    description := f.description }

/-- Accumulator of the classification loop in `analyze_doctype_for_creation`. -/
structure ClassifyAcc where
  required : List String
  optional : List String
  read_only : List String
  details : List (String × FieldInfo)

/-- One iteration of the classification loop: skip empty/system field names,
record the field's details, then bucket it as read-only, required or
optional. -/
def classifyStep (acc : ClassifyAcc) (f : FieldMeta) : ClassifyAcc :=
  if f.fieldname = "" ∨ f.fieldname ∈ excluded_fields then acc
  else
    let acc1 : ClassifyAcc :=
      { acc with details := dictInsert acc.details f.fieldname (mkFieldInfo f) }
    if f.read_only ≠ 0 then { acc1 with read_only := acc1.read_only ++ [f.fieldname] }
    else if f.reqd ≠ 0 then { acc1 with required := acc1.required ++ [f.fieldname] }
    else { acc1 with optional := acc1.optional ++ [f.fieldname] }

/-- The classification loop of `analyze_doctype_for_creation` over the full
field metadata list. -/
def classifyFields (fields : List FieldMeta) : ClassifyAcc :=
  fields.foldl classifyStep ⟨[], [], [], []⟩

/-! ## The remote client and the Schema Resolver (`analyze_doctype`) -/

/-- Query parameters of the record-list request built by
`get_doctype_info` (`fields` and `filters` are kept as the structured data
that Python serializes with `json.dumps`). -/
structure Params where
  limit_page_length : Int
  fields : Option (List String)
  filters : Option (List (List Value))

/-- Parsed body of a record-list response: `data` and the optional
`total_count`. -/
structure ListResponse where
  data : List Value
  total_count : Option Int

/-- The remote system together with the service configuration.  Responses
are functions of the request, which is exactly the premise "unchanged
remote dataset" of the properties below; a raised transport error is an
`Except.error` carrying the message.  `closeMatches` stands for the
`difflib.get_close_matches` collaborator (its output never feeds any other
computation). -/
structure Env where
  doctypesData : Except String (List String)
  fieldsOf : String → Except String (List FieldMeta)
  listRecords : String → Params → Except String ListResponse
  post : String → List (String × Value) → Except String Value
  closeMatches : String → List String → List String
  filterFieldTypes : List String

/-- Result shape of `analyze_doctype`. -/
inductive AnalyzeResult where
  | found (matched : String) (all_fields : List String)
      (filter_fields : List String) (date_fields : List String)
  | notFound (input : String) (suggestions : List String)

/-- The dict comprehension `{d.lower(): d for d in doctypes_list}` keeps the
last entry for each lowercased name; looking `name.lower()` up therefore
finds the last case-insensitive match. -/
def resolveDoctype (doctypes : List String) (name : String) : Option String :=
  doctypes.reverse.find? (fun d => pyLower d == pyLower name)

/-- `DocTypeService.analyze_doctype`: resolve a free-text name against the
remote DocType list and, on a hit, derive the field summaries. -/
def analyze_doctype (env : Env) (name : String) : Except String AnalyzeResult := do
  let names ← env.doctypesData
  match resolveDoctype names name with
  | some matched => do
    let fields ← env.fieldsOf matched
    return .found matched
      (fields.map (·.fieldname))
      (((fields.filter (fun f => f.fieldtype ∈ env.filterFieldTypes)).map
          (·.fieldname)).take 10)
      ((fields.filter (fun f => f.fieldtype ∈ ["Date", "Datetime", "DateTime"])).map
        (·.fieldname))
  | none => return .notFound name (env.closeMatches name names)

/-- Result shape of `analyze_doctype_for_creation`; the summary counts of
the Python dict are derivable lengths and are carried as computed fields. -/
inductive CreationAnalysis where
  | found (doctype : String) (required_fields optional_fields read_only_fields : List String)
      (field_details : List (String × FieldInfo))
      (total_fields required_count optional_count read_only_count : Nat)
  | notFound (input : String) (suggestions : List String)

/-- `DocTypeService.analyze_doctype_for_creation`: resolve, refetch the
field metadata, and classify it. -/
def analyze_doctype_for_creation (env : Env) (name : String) :
    Except String CreationAnalysis := do
  match ← analyze_doctype env name with
  | .notFound i s => return .notFound i s
  | .found matched _ _ _ => do
    let fields ← env.fieldsOf matched
    let c := classifyFields fields
    return .found matched c.required c.optional c.read_only c.details
      c.details.length c.required.length c.optional.length c.read_only.length

/-! ## Record Creation Engine (`create_doctype_record`) -/

/-- One entry of the `missing_fields` enumeration returned on a failed
creation validation. -/
structure MissingInfo where
  field : String
  label : String
  type : String

/-- Result shapes of `create_doctype_record`. -/
inductive CreateResult where
  | notFound (message : String) (suggestions : List String)
  | missingErr (message : String) (missing_fields : List MissingInfo)
      (required_fields : List String)
  | success (doctype : String) (record : Value) (name : Option Value)
      (message : String)
  | failure (doctype : String) (message : String)

/-- The per-field missing test of `create_doctype_record`:
`field not in data or data.get(field) is None or data.get(field) == ""`. -/
def isMissingIn (data : List (String × Value)) (field : String) : Bool :=
  match data.lookup field with
  | none => true
  | some .null => true
  | some (.str s) => s == ""
  | some _ => false

/-- `field_details.get(field, {}).get(...)` lookups for one missing field. -/
def missingInfoOf (details : List (String × FieldInfo)) (field : String) :
    MissingInfo :=
  match details.lookup field with
  | some fi => ⟨field, fi.label, fi.fieldtype⟩
  | none => ⟨field, field, "Unknown"⟩

/-- `DocTypeService.create_doctype_record`.  The second component of the
result lists the POST calls issued (endpoint and body), so that "no remote
write" is a provable statement; the surrounding `try/except` makes the
function total, mapping any raised error to the `failure` shape. -/
def create_doctype_record (env : Env) (doctype : String)
    (data : List (String × Value)) (validate : Bool) :
    CreateResult × List (String × List (String × Value)) :=
  let endpoint := "/api/resource/" ++ doctype
  let proceed : CreateResult × List (String × List (String × Value)) :=
    match env.post endpoint data with
    | .ok resp =>
      let record := (resp.getKey "data").getD (.dict [])
      (.success doctype record (record.getKey "name")
        ("Record created successfully in " ++ doctype), [(endpoint, data)])
    | .error e => (.failure doctype ("Failed to create record: " ++ e),
        [(endpoint, data)])
  if validate then
    match analyze_doctype_for_creation env doctype with
    | .error e => (.failure doctype ("Failed to create record: " ++ e), [])
    | .ok (.notFound _ sugg) =>
      (.notFound ("DocType '" ++ doctype ++ "' not found") sugg, [])
    | .ok (.found _ req _ _ details _ _ _ _) =>
      let missing := req.filter (isMissingIn data)
      if missing.isEmpty then proceed
      else
        (.missingErr ("Missing required fields: " ++ String.intercalate ", " missing)
          (missing.map (missingInfoOf details)) req, [])
  else proceed

/-! ## Record Query Engine (`get_doctype_info`, `fetch_doctype_with_filters`) -/

/-- The `fields` parameter: present only when `filter_fields` is truthy and
still non-empty after dropping falsy names. -/
def validFields (ff : Option (List String)) : Option (List String) :=
  match ff with
  | none => none
  | some fs =>
    if fs.isEmpty then none
    else
      let vs := fs.filter (fun f => f ≠ "")
      if vs.isEmpty then none else some vs

/-- Validation of one raw filter item: only lists of length ≥ 3 survive; a
3-list gets the DocType name prepended, a longer list is truncated to its
first 4 elements. -/
def rawFilterItem (doctype : String) (item : Value) : Option (List Value) :=
  match item with
  | .list l =>
    if 3 ≤ l.length then
      some (if l.length = 3 then .str doctype :: l else l.take 4)
    else none
  | _ => none

/-- The `validated_filters` loop of `get_doctype_info`. -/
def validatedFilters (doctype : String) (filters : List Value) :
    List (List Value) :=
  filters.filterMap (rawFilterItem doctype)

/-- The `filters` parameter: present only when the caller's filters are
truthy and at least one item survives validation. -/
def queryFilters (doctype : String) (filters : Option (List Value)) :
    Option (List (List Value)) :=
  match filters with
  | none => none
  | some fs =>
    if fs.isEmpty then none
    else
      let vf := validatedFilters doctype fs
      if vf.isEmpty then none else some vf

/-- The full parameter dict built by `get_doctype_info`
(`limit_page_length` defaults to the no-limit sentinel 0). -/
def queryParams (doctype : String) (ff : Option (List String))
    (filters : Option (List Value)) (limit : Option Int) : Params :=
  { limit_page_length := limit.getD 0
    fields := validFields ff
    filters := queryFilters doctype filters }

/-- Result shapes of `get_doctype_info`. -/
inductive QueryResult where
  | ok (doctype : String) (count : Nat) (total_available : Int)
      (documents : List Value) (filters_applied : Bool)
      (fields_requested : Option (List String))
  | error (doctype : String) (message : String) (count : Nat)
      (documents : List Value)

/-- `DocTypeService.get_doctype_info`: build the request, issue it, and
shape the response; a raised transport error becomes the error-shaped
result (`error=true`, `count=0`, no documents) instead of propagating. -/
def get_doctype_info (env : Env) (doctype : String)
    (filter_fields : Option (List String)) (filters : Option (List Value))
    (limit : Option Int) : QueryResult :=
  let params := queryParams doctype filter_fields filters limit
  match env.listRecords doctype params with
  | .ok resp =>
    .ok doctype resp.data.length (resp.total_count.getD (resp.data.length : Int))
      resp.data (truthyOptList filters) filter_fields
  | .error e => .error doctype e 0 []

/-- Result shapes of `fetch_doctype_with_filters`. -/
inductive FetchResult where
  | notFound (input : String) (suggestions : List String)
  | queryError (doctype : String) (message : String) (count : Nat)
      (documents : List Value)
  | result (doctype : String) (total_records : Nat) (total_available : Int)
      (filtered_records : Nat) (applied_filters : Option (List Value))
      (filter_fields_used : List String) (records : List Value)

/-- The response shaping at the end of `fetch_doctype_with_filters`
(pass an error result through, else build the summary dict, capping the
returned records at 100). -/
def fetchShape (matched : String) (ffUsed : List String)
    (filters : Option (List Value)) : QueryResult → FetchResult
  | .error d m c docs => .queryError d m c docs
  | .ok _ cnt tot docs _ _ =>
    .result matched cnt tot docs.length
      (if truthyOptList filters then filters else none) ffUsed (docs.take 100)

/-- `DocTypeService.fetch_doctype_with_filters`: resolve the name, default
the projection to the resolver's `filter_fields`, query, and shape.  The
caller's `filters` are handed to `get_doctype_info` unchanged. -/
def fetch_doctype_with_filters (env : Env) (name : String)
    (filters : Option (List Value)) (filter_fields : Option (List String)) :
    Except String FetchResult := do
  match ← analyze_doctype env name with
  | .notFound i s => return .notFound i s
  | .found matched _ ffs _ =>
    let ffUsed := match filter_fields with
      | none => ffs
      | some l => l
    let ffArg := if ffUsed.isEmpty then none else some ffUsed
    return fetchShape matched ffUsed filters
      (get_doctype_info env matched ffArg filters none)

/-! ## Filter Normalizer (`ReportService._build_filters`) -/

/-- The legal operator list of `_build_filters`. -/
def VALID_OPERATORS : List String :=
  ["=", "!=", ">", "<", ">=", "<=", "like", "not like", "in", "not in",
   "is", "is not"]

/-- Field-key resolution: exact membership first, then the first
case-insensitive match; `none` means the filter entry is dropped. -/
def resolveFilterKey (all_fields : List String) (key : String) :
    Option String :=
  if key ∈ all_fields then some key
  else all_fields.find? (fun f => pyLower f == pyLower key)

/-- One (operator, operand) pair of an operator-mapping filter value:
case-insensitively match the operator against the legal set, canonicalize
it, and emit the 4-tuple; an unrecognized operator drops the pair. -/
def canonPair (doctype k : String) (p : String × Value) :
    Option (List Value) :=
  if (VALID_OPERATORS.map pyLower).contains (pyLower p.1) then
    some [.str doctype, .str k,
      .str (((VALID_OPERATORS.find? (fun o => pyLower o == pyLower p.1)).getD "=")),
      p.2]
  else none

/-- Tuples contributed by one filter entry, by value variant: an operator
mapping yields one tuple per legal pair, a non-empty list one `in` tuple,
an empty list or `None` nothing, and any other value one `=` tuple. -/
def entryTuples (doctype : String) (all_fields : List String)
    (key : String) (value : Value) : List (List Value) :=
  match resolveFilterKey all_fields key with
  | none => []
  | some k =>
    match value with
    | .dict pairs => pairs.filterMap (canonPair doctype k)
    | .list l => if l.isEmpty then [] else [[.str doctype, .str k, .str "in", .list l]]
    | .null => []
    | v => [[.str doctype, .str k, .str "=", v]]

/-- `ReportService._build_filters`: normalize a filter mapping into the
canonical `[[doctype, field, operator, value], ...]` list, returning `None`
for a falsy input or when nothing survives. -/
def buildFilters (filters : Option (List (String × Value)))
    (doctype : String) (all_fields : List String) :
    Option (List (List Value)) :=
  match filters with
  | none => none
  | some fs =>
    if fs.isEmpty then none
    else
      let fl := fs.flatMap (fun p => entryTuples doctype all_fields p.1 p.2)
      if fl.isEmpty then none else some fl

/-! ## Report Aggregator (`ReportService`) -/

/-- Abstract model of the `datetime` collaborator used by the summary's
date statistics: an ISO-8601 parser into some linearly ordered stamp type,
rendering back to ISO text, and the day-span of a pair. -/
structure DateModel (D : Type) where
  parse : String → Option D
  iso : D → String
  le : D → D → Bool
  days : D → D → Int

/-- Python `needle in haystack` on strings (substring containment). -/
def strContains (haystack needle : String) : Bool :=
  decide (needle.data <:+: haystack.data)

/-- The financial/quantity keywords scanned for by `_calculate_summary`. -/
def NUMERIC_KEYWORDS : List String :=
  ["amount", "total", "quantity", "rate", "price", "cost", "debit",
   "credit", "balance"]

/-- Does a field name contain one of the numeric keywords
(`any(term in field.lower() for term in ...)`)? -/
def numericKeyword (f : String) : Bool :=
  NUMERIC_KEYWORDS.any (fun t => strContains (pyLower f) t)

/-- The numeric fields selected from the relevant fields. -/
def numericFields (relevant : List String) : List String :=
  relevant.filter numericKeyword

/-- The surviving numeric values of one field over the documents: skip a
missing key and `None`, coerce the rest with `float(...)`, and drop the
values whose coercion raises. -/
def collectNumeric (docs : List Value) (field : String) : List ℚ :=
  docs.filterMap (fun doc =>
    match doc.getKey field with
    | none => none
    | some .null => none
    | some v => coerceFloat v)

/-- Minimum of a non-empty value list (`min(values)`; 0 for the empty list,
which the guard makes unreachable). -/
def listMin (l : List ℚ) : ℚ :=
  match l with
  | [] => 0
  | x :: xs => xs.foldl min x

/-- Maximum of a non-empty value list (`max(values)`). -/
def listMax (l : List ℚ) : ℚ :=
  match l with
  | [] => 0
  | x :: xs => xs.foldl max x

/-- The five statistics entries written into the summary for one numeric
field when at least one value survives coercion. -/
def insertStats (docs : List Value) (summary : List (String × Value))
    (field : String) : List (String × Value) :=
  let values := collectNumeric docs field
  if values.isEmpty then summary
  else
    let s1 := dictInsert summary (field ++ "_total") (.num values.sum)
    let s2 := dictInsert s1 (field ++ "_average")
      (.num (if values.isEmpty then 0 else values.sum / (values.length : ℚ)))
    let s3 := dictInsert s2 (field ++ "_min") (.num (listMin values))
    let s4 := dictInsert s3 (field ++ "_max") (.num (listMax values))
    dictInsert s4 (field ++ "_count") (.num (values.length : ℚ))

/-- The surviving parsed dates of one field over the documents: only truthy
strings are parsed (`date_str.replace("Z", "+00:00")` first); a non-string
truthy value raises `AttributeError` at `.replace` and is skipped by the
`except` clause. -/
def collectDates {D : Type} (dm : DateModel D) (docs : List Value)
    (field : String) : List D :=
  docs.filterMap (fun doc =>
    match doc.getKey field with
    | some (.str s) => if s = "" then none else dm.parse (pyReplace s "Z" "+00:00")
    | _ => none)

/-- Minimum of a non-empty date list under the model's order. -/
def dateMin {D : Type} (dm : DateModel D) (l : List D) (dflt : D) : D :=
  match l with
  | [] => dflt
  | x :: xs => xs.foldl (fun a b => if dm.le a b then a else b) x

/-- Maximum of a non-empty date list under the model's order. -/
def dateMax {D : Type} (dm : DateModel D) (l : List D) (dflt : D) : D :=
  match l with
  | [] => dflt
  | x :: xs => xs.foldl (fun a b => if dm.le a b then b else a) x

/-- The date-based statistics block of `_calculate_summary`: first
date-like relevant field, parse its values, and record earliest, latest
and day-span when at least one date parses. -/
def dateStats {D : Type} (dm : DateModel D) (docs : List Value)
    (relevant : List String) (summary : List (String × Value)) :
    List (String × Value) :=
  let date_fields := relevant.filter
    (fun f => strContains (pyLower f) "date" || strContains (pyLower f) "creation")
  match date_fields with
  | [] => summary
  | f :: _ =>
    let dates := collectDates dm docs f
    match dates with
    | [] => summary
    | d0 :: _ =>
      let lo := dateMin dm dates d0
      let hi := dateMax dm dates d0
      let s1 := dictInsert summary "earliest_date" (.str (dm.iso lo))
      let s2 := dictInsert s1 "latest_date" (.str (dm.iso hi))
      dictInsert s2 "date_range_days" (.num (dm.days hi lo))

/-- `ReportService._calculate_summary`: the `total_count`, the statistics
of the first five numeric-keyword fields, then the date block. -/
def calculateSummary {D : Type} (dm : DateModel D) (docs : List Value)
    (relevant : List String) : List (String × Value) :=
  let base : List (String × Value) := [("total_count", .num (docs.length : ℚ))]
  let afterNums := ((numericFields relevant).take 5).foldl (insertStats docs) base
  dateStats dm docs relevant afterNums

/-- `analysis.get("filter_fields", [])`. -/
def AnalyzeResult.filterFieldsD : AnalyzeResult → List String
  | .found _ _ ffs _ => ffs
  | .notFound _ _ => []

/-- The per-report-type keyword patterns of `_get_relevant_fields`
(`type_patterns.get(report_type.lower(), [])`; "custom" maps to the empty
pattern list like any unknown type). -/
def typePatterns (rt : String) : List String :=
  if pyLower rt = "sales" then
    ["customer", "total", "amount", "grand_total", "net_total", "date", "status"]
  else if pyLower rt = "inventory" then
    ["item", "quantity", "warehouse", "stock", "rate", "amount"]
  else if pyLower rt = "financial" then
    ["account", "debit", "credit", "balance", "amount", "party"]
  else []

/-- The pure field-selection logic of `_get_relevant_fields`: the common
set, plus the pattern matches, plus the first ten filterable fields,
capped at twenty. -/
def relevantFieldsPure (rt : String) (all_fields ffs : List String) :
    List String :=
  let common := ["name", "creation", "modified", "owner", "status"]
  let patterns := typePatterns rt
  let base := common.foldl setAdd []
  let withMatches := all_fields.foldl (fun acc f =>
    if patterns.any (fun p => strContains (pyLower f) p) then setAdd acc f
    else acc) base
  ((ffs.take 10).foldl setAdd withMatches).take 20

/-- `ReportService._get_relevant_fields` (it re-resolves the DocType to
read its filterable fields). -/
def getRelevantFields (env : Env) (rt : String) (all_fields : List String)
    (doctype : String) : Except String (List String) := do
  let analysis ← analyze_doctype env doctype
  return relevantFieldsPure rt all_fields analysis.filterFieldsD

/-- Append a document to its group (`grouped_data[key].append(doc)`,
creating the key on first sight, Python dict insertion order). -/
def assocAppend (acc : List (Value × List Value)) (k : Value) (v : Value) :
    List (Value × List Value) :=
  if acc.any (fun p => Value.beq p.1 k) then
    acc.map (fun p => if Value.beq p.1 k then (p.1, p.2 ++ [v]) else p)
  else acc ++ [(k, [v])]

/-- The grouping loop of `_process_report_data`
(`key = doc.get(group_by, "Unknown")`). -/
def groupDocs (docs : List Value) (gb : String) : List (Value × List Value) :=
  docs.foldl (fun acc doc =>
    assocAppend acc ((doc.getKey gb).getD (.str "Unknown")) doc) []

/-- One formatted report section. -/
structure Section where
  group : Value
  count : Nat
  records : List Value

/-- Result shapes of `generate_report`. -/
inductive Report where
  | notFound (message : String) (suggestions : List String)
  | failed (message : String)
  | empty (report_type doctype : String) (total_records : Nat)
      (message : String) (summary : List (String × Value)) (data : List Value)
  | report (report_type doctype generated_at : String) (total_records : Nat)
      (grouped_by : Option String) (summary : List (String × Value))
      (sections : List Section) (key_insights : List String)

/-- Group a digit string in threes with commas (the thousands separator of
the `{:,.2f}` format spec). -/
def commaGroupAux : List Char → List Char
  | a :: b :: c :: d :: rest => a :: b :: c :: ',' :: commaGroupAux (d :: rest)
  | l => l

/-- Group the digits of a rendered integer part. -/
def commaGroup (s : String) : String :=
  String.mk (commaGroupAux s.data.reverse).reverse

/-- Model of Python `f"{x:,.2f}"`: two decimals with comma-grouped integer
part.  (Rounding here is round-half-up on the exact rational; the binary
float tie-behavior of CPython is not reproduced, and no verified property
inspects these strings.) -/
def fmt2 (q : ℚ) : String :=
  let n : Int := round (q * 100)
  let m := n.natAbs
  let ip := m / 100
  let fp := m % 100
  (if n < 0 then "-" else "") ++ commaGroup (toString ip) ++ "." ++
    (if fp < 10 then "0" else "") ++ toString fp

/-- Model of Python `str.title()`: upper-case the first letter of each
alphabetic run, lower-case the rest. -/
def pyTitle (s : String) : String :=
  String.mk (s.data.foldl (fun (acc : List Char × Bool) c =>
    if c.isAlpha then
      (acc.1 ++ [if acc.2 then c.toLower else c.toUpper], true)
    else (acc.1 ++ [c], false)) ([], false)).1

/-- Abstraction of Python `str()`/`f"{...}"` on the numbers stored in the
summary (exact for integer values; no verified property inspects the
non-integer case). -/
def renderNum (q : ℚ) : String :=
  if q.den = 1 then toString q.num else toString q

/-- `summary.get(key, 0)` restricted to the numeric values the summary
holds at these keys. -/
def summaryNum (summary : List (String × Value)) (k : String) : ℚ :=
  match summary.lookup k with
  | some (.num q) => q
  | _ => 0

/-- `ReportService._generate_insights` (its `documents` and `report_type`
arguments are never read). -/
def generateInsights (summary : List (String × Value)) : List String :=
  if summaryNum summary "total_count" == 0 then
    ["No records found matching the criteria."]
  else
    let base := ["Total records analyzed: " ++
      renderNum (summaryNum summary "total_count")]
    let numeric := summary.filterMap (fun p =>
      match p.2 with
      | .num v =>
        if pyEndsWith p.1 "_total" then
          let fname := pyReplace p.1 "_total" ""
          some (pyTitle fname ++ ": Total = " ++ fmt2 v ++ ", Average = " ++
            fmt2 (summaryNum summary (fname ++ "_average")))
        else none
      | _ => none)
    let dateIns := match summary.lookup "date_range_days" with
      | none => []
      | some v =>
        ["Data spans " ++ (match v with | .num d => renderNum d | _ => "") ++
          " days"]
    (base ++ numeric ++ dateIns).take 10

/-- `ReportService._process_report_data`: the zero-document short-circuit,
grouping (only when `group_by` is truthy and relevant), the optional
summary, the capped sections, and the insights.  `now` is the
`datetime.now().isoformat()` stamp, passed in as an input. -/
def processReportData {D : Type} (dm : DateModel D) (docs : List Value)
    (rt dt : String) (gb : Option String) (include_summary : Bool)
    (relevant : List String) (now : String) : Report :=
  if docs.isEmpty then
    .empty rt dt 0 "No data found matching the criteria" [] []
  else
    let grouped := match gb with
      | some g =>
        if g ≠ "" ∧ g ∈ relevant then groupDocs docs g else [(.str "All", docs)]
      | none => [(.str "All", docs)]
    let summary := if include_summary then calculateSummary dm docs relevant else []
    let sections := grouped.map (fun p => Section.mk p.1 p.2.length (p.2.take 50))
    .report rt dt now docs.length gb summary sections (generateInsights summary)

/-- `ReportService.generate_report`: resolve, select fields, normalize
filters, query (reading only the `documents` key of the query result), and
format; the surrounding `try/except` maps any raised error to the `failed`
shape. -/
def generate_report {D : Type} (dm : DateModel D) (env : Env)
    (rt doctype : String) (filters : Option (List (String × Value)))
    (gb : Option String) (include_summary : Bool) (now : String) : Report :=
  let pipeline : Except String Report :=
    match analyze_doctype env doctype with
    | .error e => .error e
    | .ok (.notFound _ sugg) =>
      .ok (Report.notFound ("DocType '" ++ doctype ++ "' not found") sugg)
    | .ok (.found matched all_fields _ _) =>
      match getRelevantFields env rt all_fields matched with
      | .error e => .error e
      | .ok relevant =>
        let filterList := buildFilters filters matched all_fields
        let data := get_doctype_info env matched (some relevant)
          (filterList.map (fun fl => fl.map Value.list)) none
        let docs := match data with
          | .ok _ _ _ documents _ _ => documents
          | .error _ _ _ documents => documents
        .ok (processReportData dm docs rt matched gb include_summary relevant now)
  match pipeline with
  | .ok r => r
  | .error e => .failed ("Error generating report: " ++ e)

/-! ## Claims -/

/-- C6: for every schema name, filters, fields and limit, a transport error
raised by the remote list call makes `get_doctype_info` return the
error-shaped result (`error=true`, `count=0`, no documents) instead of
raising (the embedding is a total function, so no exception can propagate),
and with `limit=None` the emitted request carries the no-limit sentinel
`limit_page_length = 0` rather than omitting the parameter. -/
theorem query_failure_reported_as_data (env : Env) (doctype : String)
    (ff : Option (List String)) (fl : Option (List Value)) (lim : Option Int)
    (msg : String)
    (h : env.listRecords doctype (queryParams doctype ff fl lim) = .error msg) :
    get_doctype_info env doctype ff fl lim = .error doctype msg 0 [] ∧
    (queryParams doctype ff fl none).limit_page_length = 0 := by
  refine ⟨?_, rfl⟩
  unfold get_doctype_info
  simp only [h]

/-- Remote environment used to instantiate the C6 theorem. -/
def envC6 : Env :=
  { doctypesData := .ok ["Customer"]
    fieldsOf := fun _ => .ok []
    listRecords := fun _ _ => .error "Connection refused"
    post := fun _ _ => .error "Connection refused"
    closeMatches := fun _ _ => []
    filterFieldTypes := [] }

/-- Witness for C6 at a concrete failing environment. -/
theorem query_failure_reported_as_data_witness :
    get_doctype_info envC6 "Customer" none none none =
      .error "Customer" "Connection refused" 0 [] ∧
    (queryParams "Customer" none none none).limit_page_length = 0 :=
  query_failure_reported_as_data envC6 "Customer" none none none
    "Connection refused" rfl

/-- C10: with a non-empty `filters` argument whose items are all malformed
(not lists, or shorter than 3), `get_doctype_info` sends no `filters`
parameter to the remote system yet still reports `filters_applied = true`:
the flag reflects only that the caller supplied filters. -/
theorem filters_applied_reflects_input_only (env : Env) (d : String)
    (ff : Option (List String)) (fl : List Value) (lim : Option Int)
    (resp : ListResponse)
    (hne : fl ≠ [])
    (hmal : ∀ item ∈ fl, rawFilterItem d item = none)
    (hok : env.listRecords d (queryParams d ff (some fl) lim) = .ok resp) :
    (queryParams d ff (some fl) lim).filters = none ∧
    get_doctype_info env d ff (some fl) lim =
      .ok d resp.data.length (resp.total_count.getD (resp.data.length : Int))
        resp.data true ff := by
  have hv : validatedFilters d fl = [] := by
    rw [validatedFilters, List.filterMap_eq_nil_iff]
    exact hmal
  have hq : queryFilters d (some fl) = none := by
    rw [queryFilters]
    simp only [hv]
    simp [List.isEmpty_iff, hne]
  refine ⟨hq, ?_⟩
  unfold get_doctype_info
  simp only [hok]
  simp [truthyOptList, List.isEmpty_iff, hne]

/-- Remote environment used to instantiate the C10 theorem. -/
def envC10 : Env :=
  { doctypesData := .ok ["Customer"]
    fieldsOf := fun _ => .ok []
    listRecords := fun _ _ => .ok ⟨[.dict [("name", .str "C-1")]], none⟩
    post := fun _ _ => .error "no"
    closeMatches := fun _ _ => []
    filterFieldTypes := [] }

/-- Witness for C10: the single filter item is a 2-list, hence discarded,
yet the result carries `filters_applied = true`. -/
theorem filters_applied_reflects_input_only_witness :
    (queryParams "Customer" none (some [.list [.str "status", .str "Active"]])
      none).filters = none ∧
    get_doctype_info envC10 "Customer" none
      (some [.list [.str "status", .str "Active"]]) none =
      .ok "Customer" 1 1 [.dict [("name", .str "C-1")]] true none :=
  filters_applied_reflects_input_only envC10 "Customer" none
    [.list [.str "status", .str "Active"]] none ⟨[.dict [("name", .str "C-1")]], none⟩
    (by simp) (by intro item h; rw [List.mem_singleton] at h; subst h; rfl) rfl

/-- C1: with `validate=true` and a resolvable DocType, the missing set of
`create_doctype_record` is exactly the required fields whose payload value
is absent, `None`, or the empty string; when it is non-empty the call
returns the error result enumerating each missing field's name, label and
type and issues no POST call. -/
theorem create_missing_blocks_write (env : Env) (doctype : String)
    (data : List (String × Value)) (dt : String)
    (req opt ro : List String) (details : List (String × FieldInfo))
    (n1 n2 n3 n4 : Nat)
    (h : analyze_doctype_for_creation env doctype =
      .ok (.found dt req opt ro details n1 n2 n3 n4))
    (hm : req.filter (isMissingIn data) ≠ []) :
    create_doctype_record env doctype data true =
      (.missingErr
        ("Missing required fields: " ++
          String.intercalate ", " (req.filter (isMissingIn data)))
        ((req.filter (isMissingIn data)).map (missingInfoOf details)) req,
       []) ∧
    ∀ f, f ∈ req.filter (isMissingIn data) ↔
      f ∈ req ∧ (data.lookup f = none ∨ data.lookup f = some .null ∨
        data.lookup f = some (.str "")) := by
  constructor
  · unfold create_doctype_record
    simp only [h, if_true]
    rw [if_neg]
    simp [List.isEmpty_iff, hm]
  · intro f
    rw [List.mem_filter]
    constructor
    · rintro ⟨hf, hmiss⟩
      refine ⟨hf, ?_⟩
      unfold isMissingIn at hmiss
      cases hl : data.lookup f with
      | none => exact Or.inl rfl
      | some v =>
        rw [hl] at hmiss
        cases v with
        | null => exact Or.inr (Or.inl rfl)
        | str s =>
          simp only [beq_iff_eq] at hmiss
          subst hmiss
          exact Or.inr (Or.inr rfl)
        | bool b => simp at hmiss
        | num q => simp at hmiss
        | list l => simp at hmiss
        | dict d2 => simp at hmiss
    · rintro ⟨hf, hcase⟩
      refine ⟨hf, ?_⟩
      unfold isMissingIn
      rcases hcase with h1 | h1 | h1 <;> rw [h1] <;> simp

/-- Remote environment used to instantiate the C1 theorem: a "Note"
DocType with required fields `a` and `b`. -/
def envC1 : Env :=
  { doctypesData := .ok ["Note"]
    fieldsOf := fun _ => .ok
      [⟨"a", "Data", 1, 0, none, "", none, ""⟩,
       ⟨"b", "Data", 1, 0, none, "", none, ""⟩]
    listRecords := fun _ _ => .ok ⟨[], none⟩
    post := fun _ _ => .ok (.dict [("data", .dict [("name", .str "N-1")])])
    closeMatches := fun _ _ => []
    filterFieldTypes := [] }

/-- Witness for C1: required `{a, b}` and payload `{a: "x"}` give the
missing list `["b"]` and a validation error with no POST issued. -/
theorem create_missing_blocks_write_witness :
    ["a", "b"].filter (isMissingIn [("a", Value.str "x")]) = ["b"] ∧
    create_doctype_record envC1 "Note" [("a", Value.str "x")] true =
      (.missingErr
        ("Missing required fields: " ++
          String.intercalate ", "
            (["a", "b"].filter (isMissingIn [("a", Value.str "x")])))
        ((["a", "b"].filter (isMissingIn [("a", Value.str "x")])).map
          (missingInfoOf [("a", ⟨"a", "a", "Data", none, none, ""⟩),
            ("b", ⟨"b", "b", "Data", none, none, ""⟩)]))
        ["a", "b"], []) :=
  ⟨by decide,
   (create_missing_blocks_write envC1 "Note" [("a", Value.str "x")] "Note"
      ["a", "b"] [] [] [("a", ⟨"a", "a", "Data", none, none, ""⟩),
        ("b", ⟨"b", "b", "Data", none, none, ""⟩)] 2 2 0 0 (by rfl) (by decide)).1⟩

/-- C3: a filter entry whose key matches no known field even
case-insensitively contributes no tuple: `_build_filters` on a mapping
with the entry equals `_build_filters` on the mapping without it (and, the
embedding being a total function, normalization never raises). -/
theorem unknown_filter_field_dropped (doctype : String)
    (all_fields : List String) (pre post : List (String × Value))
    (key : String) (value : Value)
    (h : ∀ f ∈ all_fields, pyLower f ≠ pyLower key) :
    buildFilters (some (pre ++ (key, value) :: post)) doctype all_fields =
      buildFilters (some (pre ++ post)) doctype all_fields := by
  have hk : resolveFilterKey all_fields key = none := by
    unfold resolveFilterKey
    rw [if_neg, List.find?_eq_none]
    · intro f hf
      simp only [beq_iff_eq]
      exact h f hf
    · intro hmem
      exact h key hmem rfl
  have he : entryTuples doctype all_fields key value = [] := by
    unfold entryTuples
    rw [hk]
  have hfl : ∀ fs : List (String × Value),
      fs.flatMap (fun p => entryTuples doctype all_fields p.1 p.2) =
        (pre ++ post).flatMap (fun p => entryTuples doctype all_fields p.1 p.2) →
      buildFilters (some fs) doctype all_fields =
        (if fs.isEmpty then none else
          buildFilters (some (pre ++ post)) doctype all_fields) := by
    intro fs heq
    by_cases hfs : fs.isEmpty
    · simp [buildFilters, hfs]
    · simp only [buildFilters, hfs, if_false, hfs, Bool.false_eq_true, if_neg,
        not_false_iff]
      rw [heq]
      by_cases hpp : (pre ++ post).isEmpty
      · rw [List.isEmpty_iff] at hpp
        simp [hpp]
      · simp [hpp]
  rw [hfl (pre ++ (key, value) :: post)
    (by rw [List.flatMap_append, List.flatMap_cons, he, List.flatMap_append]; simp)]
  simp [List.isEmpty_iff]

/-- Witness for C3 at a concrete mapping: the key "nickname" matches no
known field, so its entry is dropped. -/
theorem unknown_filter_field_dropped_witness :
    buildFilters (some [("status", .str "Active"), ("nickname", .str "Bo")])
      "Customer" ["status", "name"] =
      buildFilters (some [("status", .str "Active")]) "Customer"
        ["status", "name"] :=
  unknown_filter_field_dropped "Customer" ["status", "name"]
    [("status", .str "Active")] [] "nickname" (.str "Bo") (by decide)

/-- `_build_filters` on a one-entry mapping reduces to that entry's
tuples. -/
theorem buildFilters_singleton (doctype : String) (all_fields : List String)
    (key : String) (v : Value) :
    buildFilters (some [(key, v)]) doctype all_fields =
      (if (entryTuples doctype all_fields key v).isEmpty then none
       else some (entryTuples doctype all_fields key v)) := by
  have h : ([(key, v)].flatMap fun p => entryTuples doctype all_fields p.1 p.2)
      = entryTuples doctype all_fields key v := by simp
  unfold buildFilters
  simp only [h, List.isEmpty_cons, Bool.false_eq_true, if_false]

/-- C4: for a known (resolved) filter field, the Filter Normalizer emits
per value variant: an operator mapping contributes one tuple per pair whose
operator case-insensitively matches the legal set (with the canonical
spelling of the operator) and drops the other pairs; a non-empty list
yields exactly one `in` tuple; an empty list and `None` yield nothing; any
scalar yields exactly one `=` tuple. -/
theorem known_filter_field_variants (doctype : String)
    (all_fields : List String) (key k : String)
    (hk : resolveFilterKey all_fields key = some k) :
    (∀ pairs, buildFilters (some [(key, Value.dict pairs)]) doctype all_fields =
      (if (pairs.filterMap (canonPair doctype k)).isEmpty then none
       else some (pairs.filterMap (canonPair doctype k)))) ∧
    (∀ op val, (VALID_OPERATORS.map pyLower).contains (pyLower op) →
      ∃ c, canonPair doctype k (op, val) =
          some [.str doctype, .str k, .str c, val] ∧
        c ∈ VALID_OPERATORS ∧ pyLower c = pyLower op) ∧
    (∀ op val, ¬ (VALID_OPERATORS.map pyLower).contains (pyLower op) →
      canonPair doctype k (op, val) = none) ∧
    (∀ l, l ≠ [] →
      buildFilters (some [(key, Value.list l)]) doctype all_fields =
        some [[.str doctype, .str k, .str "in", .list l]]) ∧
    buildFilters (some [(key, Value.list [])]) doctype all_fields = none ∧
    buildFilters (some [(key, Value.null)]) doctype all_fields = none ∧
    (∀ b, buildFilters (some [(key, Value.bool b)]) doctype all_fields =
      some [[.str doctype, .str k, .str "=", .bool b]]) ∧
    (∀ q, buildFilters (some [(key, Value.num q)]) doctype all_fields =
      some [[.str doctype, .str k, .str "=", .num q]]) ∧
    (∀ s, buildFilters (some [(key, Value.str s)]) doctype all_fields =
      some [[.str doctype, .str k, .str "=", .str s]]) := by
  have hrw : ∀ v, entryTuples doctype all_fields key v =
      (match v with
       | Value.dict pairs => pairs.filterMap (canonPair doctype k)
       | Value.list l => if l.isEmpty then []
           else [[.str doctype, .str k, .str "in", .list l]]
       | Value.null => []
       | v => [[.str doctype, .str k, .str "=", v]]) := by
    intro v
    unfold entryTuples
    rw [hk]
  refine ⟨?_, ?_, ?_, ?_, ?_, ?_, ?_, ?_, ?_⟩
  · intro pairs
    rw [buildFilters_singleton, hrw]
  · intro op val hop
    cases hfind : VALID_OPERATORS.find? (fun o => pyLower o == pyLower op) with
    | none =>
      exfalso
      rw [List.find?_eq_none] at hfind
      rw [List.contains_iff_exists_mem_beq] at hop
      obtain ⟨a, ha, hbeq⟩ := hop
      obtain ⟨o, ho, rfl⟩ := List.mem_map.mp ha
      simp only [beq_iff_eq] at hbeq
      exact hfind o ho (by simp [hbeq])
    | some c =>
      have h1 := List.mem_of_find?_eq_some hfind
      have h2 := List.find?_some hfind
      simp only [beq_iff_eq] at h2
      refine ⟨c, ?_, h1, h2⟩
      unfold canonPair
      simp only [hop, if_true, hfind, Option.getD_some]
  · intro op val hop
    unfold canonPair
    rw [if_neg]
    simpa using hop
  · intro l hl
    rw [buildFilters_singleton, hrw]
    simp [List.isEmpty_iff, hl]
  · rw [buildFilters_singleton, hrw]
    rfl
  · rw [buildFilters_singleton, hrw]
    rfl
  · intro b
    rw [buildFilters_singleton, hrw]
    rfl
  · intro q
    rw [buildFilters_singleton, hrw]
    rfl
  · intro s
    rw [buildFilters_singleton, hrw]
    rfl

/-- Witness for C4 at the field "Status" resolved case-insensitively to
"status": one legal and one bogus operator pair, a non-empty list, an
empty list, `None`, and a scalar. -/
theorem known_filter_field_variants_witness :
    buildFilters
        (some [("Status", Value.dict [("LIKE", .str "%A%"), ("bogus", .str "x")])])
        "Customer" ["status"] =
      (if (([("LIKE", Value.str "%A%"), ("bogus", Value.str "x")]).filterMap
          (canonPair "Customer" "status")).isEmpty then none
       else some (([("LIKE", Value.str "%A%"), ("bogus", Value.str "x")]).filterMap
          (canonPair "Customer" "status"))) ∧
    buildFilters (some [("Status", Value.list [.str "A"])]) "Customer" ["status"] =
      some [[.str "Customer", .str "status", .str "in", .list [.str "A"]]] ∧
    buildFilters (some [("Status", Value.list [])]) "Customer" ["status"] = none ∧
    buildFilters (some [("Status", Value.null)]) "Customer" ["status"] = none ∧
    buildFilters (some [("Status", Value.str "Active")]) "Customer" ["status"] =
      some [[.str "Customer", .str "status", .str "=", .str "Active"]] := by
  have h := known_filter_field_variants "Customer" ["status"] "Status" "status"
    (by rfl)
  exact ⟨h.1 _, h.2.2.2.1 _ (by simp), h.2.2.2.2.1, h.2.2.2.2.2.1,
    h.2.2.2.2.2.2.2.2 _⟩

/-- C5: in the raw-filter path, a list item of length 3 is passed on with
the schema name prepended and an item of length ≥ 4 is truncated to its
first 4 elements; consequently `fetch_doctype_with_filters` hands an
already four-element filter to the emitted request exactly as given (same
operator and value, no re-normalization). -/
theorem raw_filter_passthrough (env : Env) (name matched : String)
    (all ffs dfs : List String) (l : List Value)
    (hA : analyze_doctype env name = .ok (.found matched all ffs dfs))
    (h4 : l.length = 4) :
    (∀ (d : String) (pre post m : List Value), 3 ≤ m.length →
      validatedFilters d (pre ++ Value.list m :: post) =
        validatedFilters d pre ++
          (if m.length = 3 then [Value.str d :: m] else [m.take 4]) ++
          validatedFilters d post) ∧
    (queryParams matched (if ffs.isEmpty then none else some ffs)
        (some [Value.list l]) none).filters = some [l] ∧
    fetch_doctype_with_filters env name (some [Value.list l]) none =
      .ok (fetchShape matched ffs (some [Value.list l])
        (get_doctype_info env matched (if ffs.isEmpty then none else some ffs)
          (some [Value.list l]) none)) := by
  refine ⟨?_, ?_, ?_⟩
  · intro d pre post m h3
    unfold validatedFilters
    rw [List.filterMap_append, List.filterMap_cons]
    have : rawFilterItem d (Value.list m) =
        some (if m.length = 3 then Value.str d :: m else m.take 4) := by
      simp only [rawFilterItem]
      rw [if_pos h3]
    rw [this]
    by_cases hm : m.length = 3
    · simp [hm]
    · simp [hm]
  · have hraw : rawFilterItem matched (Value.list l) = some l := by
      have h1 : rawFilterItem matched (Value.list l) =
          if 3 ≤ l.length then
            some (if l.length = 3 then Value.str matched :: l else l.take 4)
          else none := rfl
      rw [h1, if_pos (show 3 ≤ l.length by rw [h4]; norm_num),
        if_neg (show ¬ l.length = 3 by rw [h4]; norm_num),
        List.take_of_length_le (by rw [h4])]
    simp [queryParams, queryFilters, validatedFilters, hraw]
  · unfold fetch_doctype_with_filters
    rw [hA]
    rfl

/-- Remote environment used to instantiate the C5 theorem: "customer"
resolves to "Customer" with the filterable field "status". -/
def envC5 : Env :=
  { doctypesData := .ok ["Customer"]
    fieldsOf := fun _ => .ok [⟨"status", "Select", 0, 0, none, "", none, ""⟩]
    listRecords := fun _ _ => .ok ⟨[.dict [("status", .str "Active")]], some 1⟩
    post := fun _ _ => .error "no"
    closeMatches := fun _ _ => []
    filterFieldTypes := ["Select"] }

/-- Witness for C5: the four-element filter
`["Customer", "status", "=", "Active"]` reaches the request unchanged. -/
theorem raw_filter_passthrough_witness :
    (queryParams "Customer" (if List.isEmpty ["status"] then none else some ["status"])
        (some [Value.list [.str "Customer", .str "status", .str "=", .str "Active"]])
        none).filters =
      some [[.str "Customer", .str "status", .str "=", .str "Active"]] ∧
    fetch_doctype_with_filters envC5 "customer"
        (some [Value.list [.str "Customer", .str "status", .str "=", .str "Active"]])
        none =
      .ok (fetchShape "Customer" ["status"]
        (some [Value.list [.str "Customer", .str "status", .str "=", .str "Active"]])
        (get_doctype_info envC5 "Customer"
          (if List.isEmpty ["status"] then none else some ["status"])
          (some [Value.list [.str "Customer", .str "status", .str "=", .str "Active"]])
          none)) := by
  have h := raw_filter_passthrough envC5 "customer" "Customer" ["status"]
    ["status"] [] [.str "Customer", .str "status", .str "=", .str "Active"]
    (by rfl) (by rfl)
  exact ⟨h.2.1, h.2.2⟩

/-- Summary component of a report result, when the shape carries one. -/
def Report.summaryPart : Report → Option (List (String × Value))
  | .empty _ _ _ _ s _ => some s
  | .report _ _ _ _ _ s _ _ => some s
  | _ => none

/-- Sections component of a report result, when the shape carries one. -/
def Report.sectionsPart : Report → Option (List Section)
  | .report _ _ _ _ _ _ secs _ => some secs
  | _ => none

/-- The formatting stage touches the timestamp only in `generated_at`. -/
theorem processReportData_time_invariant {D : Type} (dm : DateModel D)
    (docs : List Value) (rt dt : String) (gb : Option String) (inc : Bool)
    (rel : List String) (n1 n2 : String) :
    (processReportData dm docs rt dt gb inc rel n1).summaryPart =
      (processReportData dm docs rt dt gb inc rel n2).summaryPart ∧
    (processReportData dm docs rt dt gb inc rel n1).sectionsPart =
      (processReportData dm docs rt dt gb inc rel n2).sectionsPart := by
  unfold processReportData
  by_cases h : docs.isEmpty <;>
    simp [h, Report.summaryPart, Report.sectionsPart]

/-- C7: two `generate_report` calls with identical arguments against the
same remote environment produce identical summaries and identical sections;
only the `generated_at` timestamp can differ. -/
theorem report_idempotent_modulo_timestamp {D : Type} (dm : DateModel D)
    (env : Env) (rt doctype : String)
    (filters : Option (List (String × Value))) (gb : Option String)
    (inc : Bool) (now1 now2 : String) :
    (generate_report dm env rt doctype filters gb inc now1).summaryPart =
      (generate_report dm env rt doctype filters gb inc now2).summaryPart ∧
    (generate_report dm env rt doctype filters gb inc now1).sectionsPart =
      (generate_report dm env rt doctype filters gb inc now2).sectionsPart := by
  unfold generate_report
  cases hA : analyze_doctype env doctype with
  | error e => exact ⟨rfl, rfl⟩
  | ok a =>
    cases a with
    | notFound i s => exact ⟨rfl, rfl⟩
    | found matched all ffs dfs =>
      dsimp only
      cases hR : getRelevantFields env rt all matched with
      | error e => exact ⟨rfl, rfl⟩
      | ok rel =>
        exact processReportData_time_invariant dm _ rt matched gb inc rel now1 now2

/-- The Schema Resolver never touches the record-list endpoint, so swapping
`listRecords` leaves resolution unchanged. -/
theorem analyze_doctype_listRecords_irrel (env : Env)
    (g : String → Params → Except String ListResponse) (name : String) :
    analyze_doctype { env with listRecords := g } name =
      analyze_doctype env name := rfl

/-- Neither does the relevant-field selection. -/
theorem getRelevantFields_listRecords_irrel (env : Env)
    (g : String → Params → Except String ListResponse) (rt : String)
    (all_fields : List String) (doctype : String) :
    getRelevantFields { env with listRecords := g } rt all_fields doctype =
      getRelevantFields env rt all_fields doctype := rfl

/-- C9: when the record query fails in transport, `generate_report` reads
the empty `documents` key of the error-shaped query result and returns the
non-error "No data found matching the criteria" report with
`total_records = 0` — the very report an honestly empty dataset yields, so
the two environments are indistinguishable to the report's caller. -/
theorem transport_error_report_indistinguishable {D : Type} (dm : DateModel D)
    (env : Env) (rt doctype : String)
    (filters : Option (List (String × Value))) (gb : Option String)
    (inc : Bool) (now : String) (matched : String)
    (all ffs dfs : List String) (a2 : AnalyzeResult) (msg : String)
    (hA : analyze_doctype env doctype = .ok (.found matched all ffs dfs))
    (hA2 : analyze_doctype env matched = .ok a2)
    (hq : env.listRecords matched
        (queryParams matched (some (relevantFieldsPure rt all a2.filterFieldsD))
          ((buildFilters filters matched all).map (fun fl => fl.map Value.list))
          none) = .error msg) :
    generate_report dm env rt doctype filters gb inc now =
      .empty rt matched 0 "No data found matching the criteria" [] [] ∧
    generate_report dm { env with listRecords := fun _ _ => .ok ⟨[], none⟩ }
        rt doctype filters gb inc now =
      .empty rt matched 0 "No data found matching the criteria" [] [] := by
  have hR : getRelevantFields env rt all matched =
      .ok (relevantFieldsPure rt all a2.filterFieldsD) := by
    unfold getRelevantFields
    rw [hA2]
    rfl
  constructor
  · have hdata : get_doctype_info env matched
        (some (relevantFieldsPure rt all a2.filterFieldsD))
        ((buildFilters filters matched all).map (fun fl => fl.map Value.list))
        none = .error matched msg 0 [] := by
      unfold get_doctype_info
      simp only [hq]
    unfold generate_report
    simp only [hA, hR, hdata]
    rfl
  · have hA' : analyze_doctype { env with listRecords := fun _ _ =>
        (.ok ⟨[], none⟩ : Except String ListResponse) } doctype =
        .ok (.found matched all ffs dfs) := by
      rw [analyze_doctype_listRecords_irrel]
      exact hA
    have hR' : getRelevantFields { env with listRecords := fun _ _ =>
        (.ok ⟨[], none⟩ : Except String ListResponse) } rt all matched =
        .ok (relevantFieldsPure rt all a2.filterFieldsD) := by
      rw [getRelevantFields_listRecords_irrel]
      exact hR
    unfold generate_report
    simp only [hA', hR']
    rfl

/-- A trivial date model for instantiating the generic theorems. -/
def dmUnit : DateModel Unit :=
  { parse := fun _ => none
    iso := fun _ => ""
    le := fun _ _ => true
    days := fun _ _ => 0 }

/-- Remote environment used to instantiate the C9 theorem: resolution
succeeds, every record-list call times out. -/
def envC9 : Env :=
  { doctypesData := .ok ["Customer"]
    fieldsOf := fun _ => .ok [⟨"status", "Select", 0, 0, none, "", none, ""⟩]
    listRecords := fun _ _ => .error "Request timed out"
    post := fun _ _ => .error "Request timed out"
    closeMatches := fun _ _ => []
    filterFieldTypes := ["Select"] }

/-- Witness for C9: under a timing-out record query, the sales report over
"customer" is the plain empty-data report, identical to the one produced
against a genuinely empty dataset. -/
theorem transport_error_report_indistinguishable_witness :
    generate_report dmUnit envC9 "sales" "customer" none none true "t1" =
      .empty "sales" "Customer" 0 "No data found matching the criteria" [] [] ∧
    generate_report dmUnit { envC9 with listRecords := fun _ _ => .ok ⟨[], none⟩ }
        "sales" "customer" none none true "t1" =
      .empty "sales" "Customer" 0 "No data found matching the criteria" [] [] :=
  transport_error_report_indistinguishable dmUnit envC9 "sales" "customer"
    none none true "t1" "Customer" ["status"] ["status"] []
    (.found "Customer" ["status"] ["status"] []) "Request timed out"
    (by rfl) (by rfl) (by rfl)

/-- Membership evidence for the required bucket of one field. -/
def reqPred (x : String) (f : FieldMeta) : Prop :=
  f.fieldname = x ∧ ¬(f.fieldname = "" ∨ f.fieldname ∈ excluded_fields) ∧
    f.read_only = 0 ∧ f.reqd ≠ 0

/-- Membership evidence for the optional bucket of one field. -/
def optPred (x : String) (f : FieldMeta) : Prop :=
  f.fieldname = x ∧ ¬(f.fieldname = "" ∨ f.fieldname ∈ excluded_fields) ∧
    f.read_only = 0 ∧ f.reqd = 0

/-- Membership evidence for the read-only bucket of one field. -/
def roPred (x : String) (f : FieldMeta) : Prop :=
  f.fieldname = x ∧ ¬(f.fieldname = "" ∨ f.fieldname ∈ excluded_fields) ∧
    f.read_only ≠ 0

/-- The classification loop's required bucket, characterized. -/
theorem classify_foldl_required (fields : List FieldMeta) (acc : ClassifyAcc)
    (x : String) :
    x ∈ (fields.foldl classifyStep acc).required ↔
      x ∈ acc.required ∨ ∃ f ∈ fields, reqPred x f := by
  induction fields generalizing acc with
  | nil => simp
  | cons g gs ih =>
    rw [List.foldl_cons, ih]
    unfold classifyStep
    dsimp only
    split_ifs with h1 h2 h3
    · constructor
      · rintro (hx | ⟨f, hf, hp⟩)
        · exact Or.inl hx
        · exact Or.inr ⟨f, List.mem_cons_of_mem g hf, hp⟩
      · rintro (hx | ⟨f, hf, hp⟩)
        · exact Or.inl hx
        · rcases List.mem_cons.mp hf with rfl | hf2
          · exact absurd h1 hp.2.1
          · exact Or.inr ⟨f, hf2, hp⟩
    · constructor
      · rintro (hx | ⟨f, hf, hp⟩)
        · exact Or.inl hx
        · exact Or.inr ⟨f, List.mem_cons_of_mem g hf, hp⟩
      · rintro (hx | ⟨f, hf, hp⟩)
        · exact Or.inl hx
        · rcases List.mem_cons.mp hf with rfl | hf2
          · exact absurd hp.2.2.1 h2
          · exact Or.inr ⟨f, hf2, hp⟩
    · constructor
      · rintro (hx | ⟨f, hf, hp⟩)
        · rcases List.mem_append.mp hx with hx2 | hx2
          · exact Or.inl hx2
          · refine Or.inr ⟨g, List.mem_cons_self g gs,
              (List.mem_singleton.mp hx2).symm, h1, ?_, h3⟩
            simpa using h2
        · exact Or.inr ⟨f, List.mem_cons_of_mem g hf, hp⟩
      · rintro (hx | ⟨f, hf, hp⟩)
        · exact Or.inl (List.mem_append.mpr (Or.inl hx))
        · rcases List.mem_cons.mp hf with rfl | hf2
          · exact Or.inl (List.mem_append.mpr
              (Or.inr (List.mem_singleton.mpr hp.1.symm)))
          · exact Or.inr ⟨f, hf2, hp⟩
    · constructor
      · rintro (hx | ⟨f, hf, hp⟩)
        · exact Or.inl hx
        · exact Or.inr ⟨f, List.mem_cons_of_mem g hf, hp⟩
      · rintro (hx | ⟨f, hf, hp⟩)
        · exact Or.inl hx
        · rcases List.mem_cons.mp hf with rfl | hf2
          · exact absurd hp.2.2.2 h3
          · exact Or.inr ⟨f, hf2, hp⟩

/-- The classification loop's optional bucket, characterized. -/
theorem classify_foldl_optional (fields : List FieldMeta) (acc : ClassifyAcc)
    (x : String) :
    x ∈ (fields.foldl classifyStep acc).optional ↔
      x ∈ acc.optional ∨ ∃ f ∈ fields, optPred x f := by
  induction fields generalizing acc with
  | nil => simp
  | cons g gs ih =>
    rw [List.foldl_cons, ih]
    unfold classifyStep
    dsimp only
    split_ifs with h1 h2 h3
    · constructor
      · rintro (hx | ⟨f, hf, hp⟩)
        · exact Or.inl hx
        · exact Or.inr ⟨f, List.mem_cons_of_mem g hf, hp⟩
      · rintro (hx | ⟨f, hf, hp⟩)
        · exact Or.inl hx
        · rcases List.mem_cons.mp hf with rfl | hf2
          · exact absurd h1 hp.2.1
          · exact Or.inr ⟨f, hf2, hp⟩
    · constructor
      · rintro (hx | ⟨f, hf, hp⟩)
        · exact Or.inl hx
        · exact Or.inr ⟨f, List.mem_cons_of_mem g hf, hp⟩
      · rintro (hx | ⟨f, hf, hp⟩)
        · exact Or.inl hx
        · rcases List.mem_cons.mp hf with rfl | hf2
          · exact absurd hp.2.2.1 h2
          · exact Or.inr ⟨f, hf2, hp⟩
    · constructor
      · rintro (hx | ⟨f, hf, hp⟩)
        · exact Or.inl hx
        · exact Or.inr ⟨f, List.mem_cons_of_mem g hf, hp⟩
      · rintro (hx | ⟨f, hf, hp⟩)
        · exact Or.inl hx
        · rcases List.mem_cons.mp hf with rfl | hf2
          · exact absurd hp.2.2.2 h3
          · exact Or.inr ⟨f, hf2, hp⟩
    · constructor
      · rintro (hx | ⟨f, hf, hp⟩)
        · rcases List.mem_append.mp hx with hx2 | hx2
          · exact Or.inl hx2
          · refine Or.inr ⟨g, List.mem_cons_self g gs,
              (List.mem_singleton.mp hx2).symm, h1, ?_, ?_⟩
            · simpa using h2
            · simpa using h3
        · exact Or.inr ⟨f, List.mem_cons_of_mem g hf, hp⟩
      · rintro (hx | ⟨f, hf, hp⟩)
        · exact Or.inl (List.mem_append.mpr (Or.inl hx))
        · rcases List.mem_cons.mp hf with rfl | hf2
          · exact Or.inl (List.mem_append.mpr
              (Or.inr (List.mem_singleton.mpr hp.1.symm)))
          · exact Or.inr ⟨f, hf2, hp⟩

/-- The classification loop's read-only bucket, characterized. -/
theorem classify_foldl_read_only (fields : List FieldMeta) (acc : ClassifyAcc)
    (x : String) :
    x ∈ (fields.foldl classifyStep acc).read_only ↔
      x ∈ acc.read_only ∨ ∃ f ∈ fields, roPred x f := by
  induction fields generalizing acc with
  | nil => simp
  | cons g gs ih =>
    rw [List.foldl_cons, ih]
    unfold classifyStep
    dsimp only
    split_ifs with h1 h2 h3
    · constructor
      · rintro (hx | ⟨f, hf, hp⟩)
        · exact Or.inl hx
        · exact Or.inr ⟨f, List.mem_cons_of_mem g hf, hp⟩
      · rintro (hx | ⟨f, hf, hp⟩)
        · exact Or.inl hx
        · rcases List.mem_cons.mp hf with rfl | hf2
          · exact absurd h1 hp.2.1
          · exact Or.inr ⟨f, hf2, hp⟩
    · constructor
      · rintro (hx | ⟨f, hf, hp⟩)
        · rcases List.mem_append.mp hx with hx2 | hx2
          · exact Or.inl hx2
          · exact Or.inr ⟨g, List.mem_cons_self g gs,
              (List.mem_singleton.mp hx2).symm, h1, h2⟩
        · exact Or.inr ⟨f, List.mem_cons_of_mem g hf, hp⟩
      · rintro (hx | ⟨f, hf, hp⟩)
        · exact Or.inl (List.mem_append.mpr (Or.inl hx))
        · rcases List.mem_cons.mp hf with rfl | hf2
          · exact Or.inl (List.mem_append.mpr
              (Or.inr (List.mem_singleton.mpr hp.1.symm)))
          · exact Or.inr ⟨f, hf2, hp⟩
    · constructor
      · rintro (hx | ⟨f, hf, hp⟩)
        · exact Or.inl hx
        · exact Or.inr ⟨f, List.mem_cons_of_mem g hf, hp⟩
      · rintro (hx | ⟨f, hf, hp⟩)
        · exact Or.inl hx
        · rcases List.mem_cons.mp hf with rfl | hf2
          · exact absurd hp.2.2 h2
          · exact Or.inr ⟨f, hf2, hp⟩
    · constructor
      · rintro (hx | ⟨f, hf, hp⟩)
        · exact Or.inl hx
        · exact Or.inr ⟨f, List.mem_cons_of_mem g hf, hp⟩
      · rintro (hx | ⟨f, hf, hp⟩)
        · exact Or.inl hx
        · rcases List.mem_cons.mp hf with rfl | hf2
          · exact absurd hp.2.2 h2
          · exact Or.inr ⟨f, hf2, hp⟩

/-- Field metadata falsifying the classifier claim: two entries share the
fieldname "x" (one read-only, one required) and one entry has an empty
fieldname. -/
def fieldsC2 : List FieldMeta :=
  [⟨"x", "Data", 0, 1, none, "", none, ""⟩,
   ⟨"x", "Data", 1, 0, none, "", none, ""⟩,
   ⟨"", "Data", 1, 0, none, "", none, ""⟩]

/-- C2 counterexample: on `fieldsC2` the required and read-only buckets
both contain "x", and the union of the buckets with the denylist is not
the schema's field-name set, so the claim fails as stated. -/
theorem classifier_claim_counterexample :
    ¬ (((classifyFields fieldsC2).required.toFinset ∩
          (classifyFields fieldsC2).optional.toFinset = ∅ ∧
        (classifyFields fieldsC2).required.toFinset ∩
          (classifyFields fieldsC2).read_only.toFinset = ∅ ∧
        (classifyFields fieldsC2).optional.toFinset ∩
          (classifyFields fieldsC2).read_only.toFinset = ∅) ∧
      (classifyFields fieldsC2).required.toFinset ∪
        (classifyFields fieldsC2).optional.toFinset ∪
        (classifyFields fieldsC2).read_only.toFinset ∪
        excluded_fields.toFinset =
        (fieldsC2.map (fun f => f.fieldname)).toFinset) := by
  decide

/-- C2 amended: for field metadata whose fieldnames are present (non-empty)
and pairwise distinct, the three buckets are pairwise disjoint, and their
union together with the denylisted schema fields is exactly the schema's
field-name set. -/
theorem classifier_invariant_amended (fields : List FieldMeta)
    (hnd : (fields.map (fun f => f.fieldname)).Nodup)
    (hne : ∀ f ∈ fields, f.fieldname ≠ "") :
    ((classifyFields fields).required.toFinset ∩
        (classifyFields fields).optional.toFinset = ∅ ∧
      (classifyFields fields).required.toFinset ∩
        (classifyFields fields).read_only.toFinset = ∅ ∧
      (classifyFields fields).optional.toFinset ∩
        (classifyFields fields).read_only.toFinset = ∅) ∧
    (classifyFields fields).required.toFinset ∪
        (classifyFields fields).optional.toFinset ∪
        (classifyFields fields).read_only.toFinset ∪
        ((fields.map (fun f => f.fieldname)).toFinset ∩
          excluded_fields.toFinset) =
      (fields.map (fun f => f.fieldname)).toFinset := by
  have hinj := List.inj_on_of_nodup_map hnd
  have hreq : ∀ x, x ∈ (classifyFields fields).required ↔
      ∃ f ∈ fields, reqPred x f := by
    intro x
    rw [classifyFields, classify_foldl_required]
    simp
  have hopt : ∀ x, x ∈ (classifyFields fields).optional ↔
      ∃ f ∈ fields, optPred x f := by
    intro x
    rw [classifyFields, classify_foldl_optional]
    simp
  have hro : ∀ x, x ∈ (classifyFields fields).read_only ↔
      ∃ f ∈ fields, roPred x f := by
    intro x
    rw [classifyFields, classify_foldl_read_only]
    simp
  refine ⟨⟨?_, ?_, ?_⟩, ?_⟩
  · ext x
    simp only [Finset.mem_inter, List.mem_toFinset, Finset.not_mem_empty,
      iff_false, not_and]
    intro hr ho
    obtain ⟨f, hf, hpf⟩ := (hreq x).mp hr
    obtain ⟨g, hg, hpg⟩ := (hopt x).mp ho
    have hfg : f = g := hinj hf hg (hpf.1.trans hpg.1.symm)
    subst hfg
    exact hpf.2.2.2 hpg.2.2.2
  · ext x
    simp only [Finset.mem_inter, List.mem_toFinset, Finset.not_mem_empty,
      iff_false, not_and]
    intro hr ho
    obtain ⟨f, hf, hpf⟩ := (hreq x).mp hr
    obtain ⟨g, hg, hpg⟩ := (hro x).mp ho
    have hfg : f = g := hinj hf hg (hpf.1.trans hpg.1.symm)
    subst hfg
    exact hpg.2.2 hpf.2.2.1
  · ext x
    simp only [Finset.mem_inter, List.mem_toFinset, Finset.not_mem_empty,
      iff_false, not_and]
    intro hr ho
    obtain ⟨f, hf, hpf⟩ := (hopt x).mp hr
    obtain ⟨g, hg, hpg⟩ := (hro x).mp ho
    have hfg : f = g := hinj hf hg (hpf.1.trans hpg.1.symm)
    subst hfg
    exact hpg.2.2 hpf.2.2.1
  · ext x
    simp only [Finset.mem_union, Finset.mem_inter, List.mem_toFinset]
    constructor
    · rintro (((hx | hx) | hx) | ⟨hx, _⟩)
      · obtain ⟨f, hf, hpf⟩ := (hreq x).mp hx
        exact List.mem_map.mpr ⟨f, hf, hpf.1⟩
      · obtain ⟨f, hf, hpf⟩ := (hopt x).mp hx
        exact List.mem_map.mpr ⟨f, hf, hpf.1⟩
      · obtain ⟨f, hf, hpf⟩ := (hro x).mp hx
        exact List.mem_map.mpr ⟨f, hf, hpf.1⟩
      · exact hx
    · intro hx
      obtain ⟨f, hf, rfl⟩ := List.mem_map.mp hx
      by_cases hexc : f.fieldname ∈ excluded_fields
      · exact Or.inr ⟨hx, hexc⟩
      · have hk : ¬(f.fieldname = "" ∨ f.fieldname ∈ excluded_fields) := by
          rintro (h | h)
          · exact hne f hf h
          · exact hexc h
        by_cases hro2 : f.read_only ≠ 0
        · exact Or.inl (Or.inr ((hro f.fieldname).mpr ⟨f, hf, rfl, hk, hro2⟩))
        · by_cases hrq : f.reqd ≠ 0
          · exact Or.inl (Or.inl (Or.inl
              ((hreq f.fieldname).mpr ⟨f, hf, rfl, hk, by simpa using hro2, hrq⟩)))
          · exact Or.inl (Or.inl (Or.inr
              ((hopt f.fieldname).mpr ⟨f, hf, rfl, hk, by simpa using hro2,
                by simpa using hrq⟩)))

/-- Well-formed field metadata instantiating the amended classifier
invariant: one required, one optional, one read-only, one denylisted. -/
def fieldsC2W : List FieldMeta :=
  [⟨"title", "Data", 1, 0, none, "", none, ""⟩,
   ⟨"notes", "Text", 0, 0, none, "", none, ""⟩,
   ⟨"ident", "Data", 0, 1, none, "", none, ""⟩,
   ⟨"owner", "Data", 1, 0, none, "", none, ""⟩]

/-- Witness for the amended C2 invariant at `fieldsC2W`. -/
theorem classifier_invariant_amended_witness :
    ((classifyFields fieldsC2W).required.toFinset ∩
        (classifyFields fieldsC2W).optional.toFinset = ∅ ∧
      (classifyFields fieldsC2W).required.toFinset ∩
        (classifyFields fieldsC2W).read_only.toFinset = ∅ ∧
      (classifyFields fieldsC2W).optional.toFinset ∩
        (classifyFields fieldsC2W).read_only.toFinset = ∅) ∧
    (classifyFields fieldsC2W).required.toFinset ∪
        (classifyFields fieldsC2W).optional.toFinset ∪
        (classifyFields fieldsC2W).read_only.toFinset ∪
        ((fieldsC2W.map (fun f => f.fieldname)).toFinset ∩
          excluded_fields.toFinset) =
      (fieldsC2W.map (fun f => f.fieldname)).toFinset :=
  classifier_invariant_amended fieldsC2W (by decide) (by decide)

/-! ## Summary-statistics lemmas (dict updates and key disjointness) -/

/-- Overwriting an existing key makes it map to the new value. -/
theorem lookup_map_replace {α : Type} (d : List (String × α)) (k : String)
    (v : α) (h : d.any (fun p => p.1 == k) = true) :
    (d.map (fun p => if p.1 == k then (k, v) else p)).lookup k = some v := by
  induction d with
  | nil => simp at h
  | cons p ps ih =>
    obtain ⟨pk, pv⟩ := p
    rw [List.map_cons]
    by_cases hp : pk = k
    · subst hp
      simp [List.lookup_cons]
    · have hb : (pk == k) = false := beq_eq_false_iff_ne.mpr hp
      simp only [hb, Bool.false_eq_true, if_false]
      rw [List.lookup_cons]
      simp only [beq_eq_false_iff_ne.mpr (Ne.symm hp)]
      simp only [List.any_cons, hb, Bool.false_or] at h
      exact ih h
  
/-- Appending a fresh key makes it map to the appended value. -/
theorem lookup_append_self {α : Type} (d : List (String × α)) (k : String)
    (v : α) (h : d.any (fun p => p.1 == k) = false) :
    (d ++ [(k, v)]).lookup k = some v := by
  induction d with
  | nil => simp [List.lookup]
  | cons p ps ih =>
    obtain ⟨pk, pv⟩ := p
    simp only [List.any_cons, Bool.or_eq_false_iff] at h
    rw [List.cons_append, List.lookup_cons]
    have hb : (k == pk) = false := by
      have h1 := h.1
      rw [beq_eq_false_iff_ne] at h1 ⊢
      exact Ne.symm h1
    simp only [hb]
    exact ih h.2

/-- Overwriting one key leaves every other key's binding unchanged. -/
theorem lookup_map_replace_other {α : Type} (d : List (String × α))
    (k k' : String) (v : α) (hne : k' ≠ k) :
    (d.map (fun p => if p.1 == k then (k, v) else p)).lookup k' =
      d.lookup k' := by
  induction d with
  | nil => rfl
  | cons p ps ih =>
    obtain ⟨pk, pv⟩ := p
    rw [List.map_cons]
    by_cases hp : pk = k
    · subst hp
      simp only [beq_self_eq_true, if_true]
      rw [List.lookup_cons, List.lookup_cons]
      simp only [beq_eq_false_iff_ne.mpr hne]
      exact ih
    · have hb : (pk == k) = false := beq_eq_false_iff_ne.mpr hp
      simp only [hb, Bool.false_eq_true, if_false]
      rw [List.lookup_cons, List.lookup_cons]
      cases hkk : k' == pk with
      | true => rfl
      | false => exact ih

/-- Appending one key leaves every other key's binding unchanged. -/
theorem lookup_append_other {α : Type} (d : List (String × α))
    (k k' : String) (v : α) (hne : k' ≠ k) :
    (d ++ [(k, v)]).lookup k' = d.lookup k' := by
  induction d with
  | nil => simp [List.lookup, beq_eq_false_iff_ne.mpr hne]
  | cons p ps ih =>
    obtain ⟨pk, pv⟩ := p
    rw [List.cons_append, List.lookup_cons, List.lookup_cons]
    cases hkk : k' == pk with
    | true => rfl
    | false => exact ih

/-- A `dictInsert` makes its key map to its value. -/
theorem lookup_dictInsert_self {α : Type} (d : List (String × α))
    (k : String) (v : α) : (dictInsert d k v).lookup k = some v := by
  unfold dictInsert
  by_cases h : d.any (fun p => p.1 == k)
  · rw [if_pos h]
    exact lookup_map_replace d k v h
  · rw [if_neg h]
    exact lookup_append_self d k v (by rwa [Bool.not_eq_true] at h)

/-- A `dictInsert` leaves every other key's binding unchanged. -/
theorem lookup_dictInsert_other {α : Type} (d : List (String × α))
    (k k' : String) (v : α) (hne : k' ≠ k) :
    (dictInsert d k v).lookup k' = d.lookup k' := by
  unfold dictInsert
  by_cases h : d.any (fun p => p.1 == k)
  · rw [if_pos h]
    exact lookup_map_replace_other d k k' v hne
  · rw [if_neg h]
    exact lookup_append_other d k k' v hne

/-- The five statistics key suffixes written by `_calculate_summary`. -/
def STAT_SUFFIXES : List String := ["_total", "_average", "_min", "_max", "_count"]

/-- A key built with a suffix differs from any string not ending in it. -/
theorem append_ne_of_not_data_suffix (a s k : String)
    (h : ¬ s.data <:+ k.data) : a ++ s ≠ k := by
  intro heq
  apply h
  rw [← heq, String.data_append]
  exact List.suffix_append _ _

/-- Strings are equal when their character lists are. -/
theorem string_data_inj {a b : String} (h : a.data = b.data) : a = b := by
  cases a
  cases b
  exact congrArg String.mk h

/-- Two appends with mutually non-suffix tails cannot agree. -/
theorem append_eq_append_no_suffix {s t : String}
    (hst : ¬ s.data <:+ t.data) (hts : ¬ t.data <:+ s.data)
    (a b : String) (h : a ++ s = b ++ t) : False := by
  have h1 : s.data <:+ (b ++ t).data := by
    rw [← h, String.data_append]
    exact List.suffix_append _ _
  have h2 : t.data <:+ (b ++ t).data := by
    rw [String.data_append]
    exact List.suffix_append _ _
  rcases List.suffix_or_suffix_of_suffix h1 h2 with hc | hc
  · exact hst hc
  · exact hts hc

/-- Two statistics keys agree only when both their field parts and their
suffixes agree (no statistics suffix is a suffix of another). -/
theorem stat_key_inj {s t : String} (hs : s ∈ STAT_SUFFIXES)
    (ht : t ∈ STAT_SUFFIXES) (a b : String) (h : a ++ s = b ++ t) :
    s = t ∧ a = b := by
  simp only [STAT_SUFFIXES] at hs ht
  fin_cases hs <;> fin_cases ht <;>
    first
      | exact ⟨rfl, by
          have hd := congrArg String.data h
          rw [String.data_append, String.data_append] at hd
          exact string_data_inj (List.append_cancel_right hd)⟩
      | exact absurd h
          (fun hh => append_eq_append_no_suffix (by decide) (by decide) _ _ hh)

/-- Same field, different statistics suffixes: different keys. -/
theorem stat_keys_ne {s t : String} (hs : s ∈ STAT_SUFFIXES)
    (ht : t ∈ STAT_SUFFIXES) (hst : s ≠ t) (a b : String) :
    a ++ s ≠ b ++ t :=
  fun h => hst (stat_key_inj hs ht a b h).1

/-- Different fields: different statistics keys, whatever the suffixes. -/
theorem stat_keys_ne_of_base_ne {s t : String} (hs : s ∈ STAT_SUFFIXES)
    (ht : t ∈ STAT_SUFFIXES) (a b : String) (hab : a ≠ b) :
    a ++ s ≠ b ++ t :=
  fun h => hab (stat_key_inj hs ht a b h).2

/-- Statistics keys never collide with the date-section keys.  The five
hypotheses say the target key does not end in any statistics suffix. -/
theorem stat_key_ne_fixed {s : String} (hs : s ∈ STAT_SUFFIXES)
    (field k : String)
    (h1 : ¬ "_total".data <:+ k.data) (h2 : ¬ "_average".data <:+ k.data)
    (h3 : ¬ "_min".data <:+ k.data) (h4 : ¬ "_max".data <:+ k.data)
    (h5 : ¬ "_count".data <:+ k.data) : field ++ s ≠ k := by
  simp only [STAT_SUFFIXES] at hs
  fin_cases hs
  · exact append_ne_of_not_data_suffix _ _ _ h1
  · exact append_ne_of_not_data_suffix _ _ _ h2
  · exact append_ne_of_not_data_suffix _ _ _ h3
  · exact append_ne_of_not_data_suffix _ _ _ h4
  · exact append_ne_of_not_data_suffix _ _ _ h5

/-- The value `_calculate_summary` stores under `field ++ s`. -/
def statValue (docs : List Value) (field s : String) : Value :=
  let values := collectNumeric docs field
  if s = "_total" then .num values.sum
  else if s = "_average" then
    .num (if values.isEmpty then 0 else values.sum / (values.length : ℚ))
  else if s = "_min" then .num (listMin values)
  else if s = "_max" then .num (listMax values)
  else .num ((values.length : ℚ))

/-- After processing a field with surviving values, each of its five
statistics keys holds its statistic. -/
theorem insertStats_lookup_self (docs : List Value)
    (summary : List (String × Value)) (field : String) {s : String}
    (hs : s ∈ STAT_SUFFIXES)
    (hv : (collectNumeric docs field).isEmpty = false) :
    (insertStats docs summary field).lookup (field ++ s) =
      some (statValue docs field s) := by
  unfold insertStats
  dsimp only
  rw [hv]
  simp only [Bool.false_eq_true, if_false]
  simp only [STAT_SUFFIXES] at hs
  fin_cases hs
  · rw [lookup_dictInsert_other _ _ _ _
        (stat_keys_ne (by decide) (by decide) (by decide) field field),
      lookup_dictInsert_other _ _ _ _
        (stat_keys_ne (by decide) (by decide) (by decide) field field),
      lookup_dictInsert_other _ _ _ _
        (stat_keys_ne (by decide) (by decide) (by decide) field field),
      lookup_dictInsert_other _ _ _ _
        (stat_keys_ne (by decide) (by decide) (by decide) field field),
      lookup_dictInsert_self]
    simp [statValue, hv]
  · rw [lookup_dictInsert_other _ _ _ _
        (stat_keys_ne (by decide) (by decide) (by decide) field field),
      lookup_dictInsert_other _ _ _ _
        (stat_keys_ne (by decide) (by decide) (by decide) field field),
      lookup_dictInsert_other _ _ _ _
        (stat_keys_ne (by decide) (by decide) (by decide) field field),
      lookup_dictInsert_self]
    simp [statValue, hv]
  · rw [lookup_dictInsert_other _ _ _ _
        (stat_keys_ne (by decide) (by decide) (by decide) field field),
      lookup_dictInsert_other _ _ _ _
        (stat_keys_ne (by decide) (by decide) (by decide) field field),
      lookup_dictInsert_self]
    simp [statValue, hv]
  · rw [lookup_dictInsert_other _ _ _ _
        (stat_keys_ne (by decide) (by decide) (by decide) field field),
      lookup_dictInsert_self]
    simp [statValue, hv]
  · rw [lookup_dictInsert_self]
    simp [statValue, hv]

/-- Processing a different field never touches this field's keys. -/
theorem insertStats_lookup_preserved (docs : List Value)
    (summary : List (String × Value)) (g field : String) {s : String}
    (hs : s ∈ STAT_SUFFIXES) (hg : g ≠ field) :
    (insertStats docs summary g).lookup (field ++ s) =
      summary.lookup (field ++ s) := by
  unfold insertStats
  dsimp only
  by_cases hv : (collectNumeric docs g).isEmpty
  · rw [if_pos hv]
  · rw [if_neg hv]
    rw [lookup_dictInsert_other _ _ _ _
        (stat_keys_ne_of_base_ne hs (by decide) field g (Ne.symm hg)),
      lookup_dictInsert_other _ _ _ _
        (stat_keys_ne_of_base_ne hs (by decide) field g (Ne.symm hg)),
      lookup_dictInsert_other _ _ _ _
        (stat_keys_ne_of_base_ne hs (by decide) field g (Ne.symm hg)),
      lookup_dictInsert_other _ _ _ _
        (stat_keys_ne_of_base_ne hs (by decide) field g (Ne.symm hg)),
      lookup_dictInsert_other _ _ _ _
        (stat_keys_ne_of_base_ne hs (by decide) field g (Ne.symm hg))]

/-- Folding over fields that do not mention this field leaves its keys
unchanged. -/
theorem foldl_insertStats_not_mem (docs : List Value) (l : List String)
    (summary : List (String × Value)) (field : String) {s : String}
    (hs : s ∈ STAT_SUFFIXES) (hf : field ∉ l) :
    (l.foldl (insertStats docs) summary).lookup (field ++ s) =
      summary.lookup (field ++ s) := by
  induction l generalizing summary with
  | nil => rfl
  | cons g gs ih =>
    rw [List.foldl_cons]
    have hgf : g ≠ field := by
      intro h
      subst h
      exact hf (List.mem_cons_self g gs)
    rw [ih _ (fun h => hf (List.mem_cons_of_mem g h))]
    exact insertStats_lookup_preserved docs summary g field hs hgf

/-- After the numeric fold, every processed field with surviving values has
its five statistics in place. -/
theorem foldl_insertStats_lookup (docs : List Value) (l : List String)
    (summary : List (String × Value)) (field : String) {s : String}
    (hs : s ∈ STAT_SUFFIXES) (hf : field ∈ l)
    (hv : (collectNumeric docs field).isEmpty = false) :
    (l.foldl (insertStats docs) summary).lookup (field ++ s) =
      some (statValue docs field s) := by
  induction l generalizing summary with
  | nil => simp at hf
  | cons g gs ih =>
    rw [List.foldl_cons]
    by_cases hmem : field ∈ gs
    · exact ih _ hmem
    · have hfg : g = field := by
        rcases List.mem_cons.mp hf with h | h
        · exact h.symm
        · exact absurd h hmem
      subst hfg
      rw [foldl_insertStats_not_mem docs gs _ g hs hmem]
      exact insertStats_lookup_self docs summary g hs hv

/-- The date-statistics block never touches the numeric statistics keys. -/
theorem dateStats_lookup_preserved {D : Type} (dm : DateModel D)
    (docs : List Value) (relevant : List String)
    (summary : List (String × Value)) (field : String) {s : String}
    (hs : s ∈ STAT_SUFFIXES) :
    (dateStats dm docs relevant summary).lookup (field ++ s) =
      summary.lookup (field ++ s) := by
  unfold dateStats
  dsimp only
  cases relevant.filter
      (fun f => strContains (pyLower f) "date" ||
        strContains (pyLower f) "creation") with
  | nil => rfl
  | cons f fs =>
    dsimp only
    cases collectDates dm docs f with
    | nil => rfl
    | cons d0 ds =>
      dsimp only
      rw [lookup_dictInsert_other _ _ _ _
          (stat_key_ne_fixed hs field "date_range_days" (by decide) (by decide)
            (by decide) (by decide) (by decide)),
        lookup_dictInsert_other _ _ _ _
          (stat_key_ne_fixed hs field "latest_date" (by decide) (by decide)
            (by decide) (by decide) (by decide)),
        lookup_dictInsert_other _ _ _ _
          (stat_key_ne_fixed hs field "earliest_date" (by decide) (by decide)
            (by decide) (by decide) (by decide))]

/-- C8: for every document sequence of mappings and every numeric-keyword
field among the first five the summary selects, `_calculate_summary`
coerces each document's value for the field to a number, silently skips
the values that fail coercion, and — when at least one value survives —
stores total, mean, min, max and count computed over the surviving values
only. -/
theorem summary_stats_over_surviving_values {D : Type} (dm : DateModel D)
    (docs : List Value) (relevant : List String) (field : String)
    (hdict : ∀ d ∈ docs, d.isDict = true)
    (hf : field ∈ (numericFields relevant).take 5)
    (hv : collectNumeric docs field ≠ []) :
    (∀ q : ℚ, q ∈ collectNumeric docs field ↔
      ∃ doc ∈ docs, ∃ v, doc.getKey field = some v ∧ coerceFloat v = some q) ∧
    (calculateSummary dm docs relevant).lookup (field ++ "_total") =
      some (.num (collectNumeric docs field).sum) ∧
    (calculateSummary dm docs relevant).lookup (field ++ "_average") =
      some (.num ((collectNumeric docs field).sum /
        ((collectNumeric docs field).length : ℚ))) ∧
    (calculateSummary dm docs relevant).lookup (field ++ "_min") =
      some (.num (listMin (collectNumeric docs field))) ∧
    (calculateSummary dm docs relevant).lookup (field ++ "_max") =
      some (.num (listMax (collectNumeric docs field))) ∧
    (calculateSummary dm docs relevant).lookup (field ++ "_count") =
      some (.num ((collectNumeric docs field).length : ℚ)) := by
  have hve : (collectNumeric docs field).isEmpty = false := by
    cases hcc : collectNumeric docs field with
    | nil => exact absurd hcc hv
    | cons a l => rfl
  have hkey : ∀ s, s ∈ STAT_SUFFIXES →
      (calculateSummary dm docs relevant).lookup (field ++ s) =
        some (statValue docs field s) := by
    intro s hs
    unfold calculateSummary
    dsimp only
    rw [dateStats_lookup_preserved dm docs relevant _ field hs]
    exact foldl_insertStats_lookup docs _ _ field hs hf hve
  refine ⟨?_, ?_, ?_, ?_, ?_, ?_⟩
  · intro q
    unfold collectNumeric
    rw [List.mem_filterMap]
    constructor
    · rintro ⟨doc, hdoc, hfd⟩
      refine ⟨doc, hdoc, ?_⟩
      cases hget : doc.getKey field with
      | none => rw [hget] at hfd; exact absurd hfd (by simp)
      | some v =>
        rw [hget] at hfd
        cases v with
        | null => exact absurd hfd (by simp)
        | bool b => exact ⟨.bool b, rfl, hfd⟩
        | num q2 => exact ⟨.num q2, rfl, hfd⟩
        | str s2 => exact ⟨.str s2, rfl, hfd⟩
        | list l2 => exact ⟨.list l2, rfl, hfd⟩
        | dict d2 => exact ⟨.dict d2, rfl, hfd⟩
    · rintro ⟨doc, hdoc, v, hgv, hcv⟩
      refine ⟨doc, hdoc, ?_⟩
      rw [hgv]
      cases v with
      | null => exact absurd hcv (by simp [coerceFloat])
      | bool b => exact hcv
      | num q2 => exact hcv
      | str s2 => exact hcv
      | list l2 => exact hcv
      | dict d2 => exact hcv
  · rw [hkey "_total" (by decide)]
    simp [statValue]
  · rw [hkey "_average" (by decide)]
    simp [statValue, hve]
  · rw [hkey "_min" (by decide)]
    simp [statValue]
  · rw [hkey "_max" (by decide)]
    simp [statValue]
  · rw [hkey "_count" (by decide)]
    simp [statValue]

/-- The documents of the C8 scenario. -/
def docsC8 : List Value :=
  [.dict [("amount", .str "10")],
   .dict [("amount", .str "20")],
   .dict [("amount", .str "bad")]]

/-- Witness for C8: over `[{amount: "10"}, {amount: "20"}, {amount: "bad"}]`
the field "amount" yields total 30, average 15 and count 2, the
non-numeric value being skipped rather than erroring. -/
theorem summary_stats_over_surviving_values_witness :
    collectNumeric docsC8 "amount" = [10, 20] ∧
    (calculateSummary dmUnit docsC8 ["amount"]).lookup ("amount" ++ "_total") =
      some (.num 30) ∧
    (calculateSummary dmUnit docsC8 ["amount"]).lookup ("amount" ++ "_average") =
      some (.num 15) ∧
    (calculateSummary dmUnit docsC8 ["amount"]).lookup ("amount" ++ "_count") =
      some (.num 2) := by
  have hc : collectNumeric docsC8 "amount" = [((10 : ℕ) : ℚ), ((20 : ℕ) : ℚ)] := rfl
  have hc2 : collectNumeric docsC8 "amount" = [10, 20] := by
    rw [hc]
    norm_num
  have h := summary_stats_over_surviving_values dmUnit docsC8 ["amount"] "amount"
    (by
      intro d hd
      simp only [docsC8, List.mem_cons, List.not_mem_nil, or_false] at hd
      rcases hd with rfl | rfl | rfl <;> rfl)
    (by decide)
    (by rw [hc2]; simp)
  refine ⟨hc2, ?_, ?_, ?_⟩
  · rw [h.2.1, hc2]
    norm_num [List.sum_cons, List.sum_nil]
  · rw [h.2.2.1, hc2]
    norm_num [List.sum_cons, List.sum_nil]
  · rw [h.2.2.2.2.2, hc2]
    norm_num
